import Mathlib

/-!
Shallow embedding of mvines/burri (src/main.rs): a CLI tool that submits a
single self-transfer transaction.  Pure construction code (transfer_with,
amount selection, message assembly) is translated directly; the network and
signer collaborators are injected as explicit outcomes, and the pipeline of
main (after CLI parsing) becomes a function from those outcomes to a step
trace plus a process result.
-/

/-- A solana public key: 32 opaque bytes. -/
structure Pubkey where
  bytes : List Nat
deriving DecidableEq, Repr

/-- The system program id, the all-zero public key (solana_sdk::system_program::id()). -/
def system_program_id : Pubkey := ⟨List.replicate 32 0⟩

/-- AccountMeta from solana_sdk: key plus signer and writable flags. -/
structure AccountMeta where
  pubkey : Pubkey
  is_signer : Bool
  is_writable : Bool
deriving DecidableEq, Repr

/-- AccountMeta::new: writable meta. -/
def AccountMeta.new (pubkey : Pubkey) (signer : Bool) : AccountMeta :=
  ⟨pubkey, signer, true⟩

/-- AccountMeta::new_readonly: non-writable meta. -/
def AccountMeta.new_readonly (pubkey : Pubkey) (signer : Bool) : AccountMeta :=
  ⟨pubkey, signer, false⟩

/-- The one SystemInstruction variant this tool serializes.  In
solana_sdk::system_instruction::SystemInstruction the Transfer variant has
enum index 2 (after CreateAccount and Assign). -/
inductive SystemInstruction where
  | Transfer (lamports : Nat)
deriving DecidableEq, Repr

/-- Enum index of SystemInstruction::Transfer under bincode. -/
def transfer_variant_index : Nat := 2

/-- Little-endian byte encoding of n on k bytes (bincode fixed-width ints). -/
def leBytes : Nat → Nat → List Nat
  | 0, _ => []
  | k + 1, n => n % 256 :: leBytes k (n / 256)

/-- Value of a little-endian byte list. -/
def leValue : List Nat → Nat
  | [] => 0
  | b :: bs => b + 256 * leValue bs

/-- bincode serialization of a SystemInstruction: u32 little-endian variant
index, then the fields in order, u64 fixed-width little-endian. -/
def bincode_serialize : SystemInstruction → List Nat
  | .Transfer lamports => leBytes 4 transfer_variant_index ++ leBytes 8 lamports

/-- bincode deserialization of a Transfer payload: a 4-byte variant tag that
must equal the Transfer index, then exactly 8 bytes of little-endian u64. -/
def bincode_deserialize_transfer (data : List Nat) : Option Nat :=
  match data with
  | t0 :: t1 :: t2 :: t3 :: rest =>
    if leValue [t0, t1, t2, t3] = transfer_variant_index ∧ rest.length = 8 then
      some (leValue rest)
    else
      none
  | _ => none

/-- Instruction from solana_sdk: program id, account metas, binary payload. -/
structure Instruction where
  program_id : Pubkey
  accounts : List AccountMeta
  data : List Nat
deriving DecidableEq, Repr

/-- Instruction::new_with_bincode: serialize the value into the payload. -/
def Instruction.new_with_bincode (program_id : Pubkey) (data : SystemInstruction)
    (accounts : List AccountMeta) : Instruction :=
  ⟨program_id, accounts, bincode_serialize data⟩

/-- transfer_with from src/main.rs lines 25-44: metas are from (signer,
writable), to (not signer, writable), then each extra address as a read-only
non-signer, wrapped with the system program id and a bincoded Transfer. -/
def transfer_with (from_pubkey to_pubkey : Pubkey) (lamports : Nat)
    (extra_addresses : List Pubkey) : Instruction :=
  let account_metas :=
    [AccountMeta.new from_pubkey true, AccountMeta.new to_pubkey false]
      ++ extra_addresses.map (fun extra_address => AccountMeta.new_readonly extra_address false)
  Instruction.new_with_bincode system_program_id
    (SystemInstruction.Transfer lamports) account_metas

/-- C2: transfer_with yields len(extras) + 2 metas: (from, signer, writable),
(to, not-signer, writable), then the extras in order as read-only
non-signers; no key validation or deduplication. -/
theorem transfer_with_accounts (from_pubkey to_pubkey : Pubkey) (lamports : Nat)
    (extra_addresses : List Pubkey) :
    (transfer_with from_pubkey to_pubkey lamports extra_addresses).accounts =
      [⟨from_pubkey, true, true⟩, ⟨to_pubkey, false, true⟩]
        ++ extra_addresses.map (fun a => ⟨a, false, false⟩) ∧
    (transfer_with from_pubkey to_pubkey lamports extra_addresses).accounts.length =
      extra_addresses.length + 2 := by
  constructor
  · rfl
  · simp [transfer_with, Instruction.new_with_bincode, AccountMeta.new,
      AccountMeta.new_readonly]

/-- C10: the instruction built by transfer_with always targets the system
program id, independent of every input. -/
theorem transfer_with_program_id (from_pubkey to_pubkey : Pubkey) (lamports : Nat)
    (extra_addresses : List Pubkey) :
    (transfer_with from_pubkey to_pubkey lamports extra_addresses).program_id =
      system_program_id := by
  rfl

lemma leBytes_length (k n : Nat) : (leBytes k n).length = k := by
  induction k generalizing n with
  | zero => rfl
  | succ k ih => simp [leBytes, ih]

lemma leValue_leBytes (k n : Nat) (h : n < 256 ^ k) : leValue (leBytes k n) = n := by
  induction k generalizing n with
  | zero =>
    simp only [Nat.pow_zero, Nat.lt_one_iff] at h
    simp [h, leBytes, leValue]
  | succ k ih =>
    have hdiv : n / 256 < 256 ^ k := by
      rw [Nat.div_lt_iff_lt_mul (by norm_num)]
      calc n < 256 ^ (k + 1) := h
        _ = 256 ^ k * 256 := by ring
    simp [leBytes, leValue, ih (n / 256) hdiv, Nat.mod_add_div]

/-- C4: serializing the Transfer payload carried by the instruction that
transfer_with builds, then deserializing it, returns the amount unchanged
for every amount below 2^64. -/
theorem transfer_payload_round_trip (from_pubkey to_pubkey : Pubkey)
    (extra_addresses : List Pubkey) (amount : Nat) (h : amount < 2 ^ 64) :
    bincode_deserialize_transfer
        ((transfer_with from_pubkey to_pubkey amount extra_addresses).data) =
      some amount := by
  have h8 : amount < 256 ^ 8 := by
    calc amount < 2 ^ 64 := h
      _ = 256 ^ 8 := by norm_num
  have hdata : (transfer_with from_pubkey to_pubkey amount extra_addresses).data =
      leBytes 4 transfer_variant_index ++ leBytes 8 amount := rfl
  rw [hdata]
  have htag : leBytes 4 transfer_variant_index = [2, 0, 0, 0] := by rfl
  rw [htag]
  simp only [bincode_deserialize_transfer, List.cons_append, List.nil_append]
  rw [if_pos]
  · rw [leValue_leBytes 8 amount h8]
  · exact ⟨by rfl, leBytes_length 8 amount⟩

/-- C4 witness at a concrete amount. -/
theorem transfer_payload_round_trip_witness :
    (300 : Nat) < 2 ^ 64 ∧
      bincode_deserialize_transfer
          ((transfer_with ⟨[1]⟩ ⟨[2]⟩ 300 [⟨[3]⟩]).data) = some 300 :=
  ⟨by norm_num, transfer_payload_round_trip ⟨[1]⟩ ⟨[2]⟩ [⟨[3]⟩] 300 (by norm_num)⟩

/-- Rng::gen_range(lo..hi) on integer ranges, with the randomness source made
explicit as a draw r: it panics when the range is empty (modelled as none)
and otherwise returns a value in [lo, hi), every such value being reachable
for some draw. -/
def gen_range (r lo hi : Nat) : Option Nat :=
  if lo < hi then some (lo + r % (hi - lo)) else none

/-- The amount selection step of main (line 141): transfer_amount =
thread_rng().gen_range(0..(feepayer_balance / 2)). -/
def select_transfer_amount (r feepayer_balance : Nat) : Option Nat :=
  gen_range r 0 (feepayer_balance / 2)

/-- C3: for every balance B at least 2 the selection step succeeds with a
value in [0, B/2), and every value of that range is reached by some draw of
the randomness source. -/
theorem amount_selection_range (B : Nat) (hB : 2 ≤ B) :
    (∀ r, ∃ a, select_transfer_amount r B = some a ∧ a < B / 2) ∧
    (∀ v, v < B / 2 → ∃ r, select_transfer_amount r B = some v) := by
  have hpos : 0 < B / 2 := Nat.div_pos hB (by norm_num)
  constructor
  · intro r
    refine ⟨r % (B / 2), ?_, ?_⟩
    · simp [select_transfer_amount, gen_range, hpos]
    · exact Nat.mod_lt r hpos
  · intro v hv
    refine ⟨v, ?_⟩
    simp [select_transfer_amount, gen_range, hpos, Nat.mod_eq_of_lt hv]

/-- C3 witness at balance 10 and draw 7: the selected amount is 7 % 5 = 2. -/
theorem amount_selection_range_witness :
    2 ≤ 10 ∧ (∃ a, select_transfer_amount 7 10 = some a ∧ a < 10 / 2) :=
  ⟨by norm_num, (amount_selection_range 10 (by norm_num)).1 7⟩

/-- Message from solana_sdk, as used here: the wrapped instructions and the
fee payer passed to Message::new (the recent blockhash is bound later, at
signing time, by Transaction::try_sign). -/
structure Message where
  instructions : List Instruction
  fee_payer : Option Pubkey
deriving DecidableEq, Repr

/-- Message::new. -/
def Message.new (instructions : List Instruction) (payer : Option Pubkey) : Message :=
  ⟨instructions, payer⟩

/-- Transaction, reduced to the state the pipeline observes: its message and
whether it has been signed. -/
structure Transaction where
  message : Message
  is_signed : Bool
deriving DecidableEq, Repr

/-- Transaction::new_unsigned. -/
def Transaction.new_unsigned (message : Message) : Transaction :=
  ⟨message, false⟩

/-- The message main assembles (lines 152-160): one transfer_with instruction
with from = to = the fee payer, and the fee payer set to that same key. -/
def main_message (feepayer_address : Pubkey) (transfer_amount : Nat)
    (extra_addresses : List Pubkey) : Message :=
  Message.new
    [transfer_with feepayer_address feepayer_address transfer_amount extra_addresses]
    (some feepayer_address)

/-- The stages of the pipeline in main, in the order the code runs them. -/
inductive Step where
  | queryBalance
  | selectAmount
  | buildInstruction
  | assembleMessage
  | queryAnchor
  | signStep
  | submitStep
deriving DecidableEq, Repr

/-- The terminal outcome of a run: the Signature line printed on success, the
error message reported on a fatal error, or a runtime panic. -/
inductive RunResult where
  | success (line : String)
  | failure (msg : String)
  | panicked (msg : String)
deriving DecidableEq, Repr

/-- Process exit status for each outcome (0 on Ok from main, 1 on Err or
explicit exit(1), 101 on a Rust panic). -/
def RunResult.exit_code : RunResult → Nat
  | .success _ => 0
  | .failure _ => 1
  | .panicked _ => 101

/-- What a run produces: the stages that were reached, the transaction that
was assembled (if the pipeline got that far), and the terminal outcome. -/
structure RunOutcome where
  trace : List Step
  assembled : Option Transaction
  result : RunResult
deriving Repr

/-- The injected collaborators of main: resolved signer, randomness draw,
validated extra addresses, and the outcomes of the three RPC calls plus
signing. -/
structure Env where
  signer_result : Except String Pubkey
  rng : Nat
  extra_addresses : List Pubkey
  balance_result : Except String Nat
  blockhash_result : Except String Nat
  sign_result : Except String Unit
  submit_result : Except String Nat
deriving Repr

/-- main (lines 107-179) with collaborator outcomes injected.  Order follows
the code: signer resolution (exit 1 with an error-prefixed message on
failure), get_balance (a bare ? that propagates the raw error), gen_range on
0..balance/2 (panics when the range is empty), transfer_with inside
Message::new followed by Transaction::new_unsigned, get_latest_blockhash,
try_sign, send_and_confirm, then the Signature line. -/
def runCore (env : Env) : RunOutcome :=
  match env.signer_result with
  | .error err => ⟨[], none, .failure ("error: " ++ err)⟩
  | .ok feepayer_address =>
    match env.balance_result with
    | .error err => ⟨[.queryBalance], none, .failure err⟩
    | .ok feepayer_balance =>
      match select_transfer_amount env.rng feepayer_balance with
      | none =>
        ⟨[.queryBalance, .selectAmount], none, .panicked "cannot sample empty range"⟩
      | some transfer_amount =>
        let transaction := Transaction.new_unsigned
          (main_message feepayer_address transfer_amount env.extra_addresses)
        match env.blockhash_result with
        | .error err =>
          ⟨[.queryBalance, .selectAmount, .buildInstruction, .assembleMessage,
              .queryAnchor],
            some transaction,
            .failure ("error: unable to get latest blockhash: " ++ err)⟩
        | .ok _blockhash =>
          match env.sign_result with
          | .error err =>
            ⟨[.queryBalance, .selectAmount, .buildInstruction, .assembleMessage,
                .queryAnchor, .signStep],
              some transaction,
              .failure ("error: failed to sign transaction: " ++ err)⟩
          | .ok _ =>
            match env.submit_result with
            | .error err =>
              ⟨[.queryBalance, .selectAmount, .buildInstruction, .assembleMessage,
                  .queryAnchor, .signStep, .submitStep],
                some transaction,
                .failure ("error: send transaction: " ++ err)⟩
            | .ok signature =>
              ⟨[.queryBalance, .selectAmount, .buildInstruction, .assembleMessage,
                  .queryAnchor, .signStep, .submitStep],
                some transaction,
                .success ("Signature: " ++ toString signature)⟩

/-- The order in which the code visits the stages. -/
def code_step_order : List Step :=
  [.queryBalance, .selectAmount, .buildInstruction, .assembleMessage,
    .queryAnchor, .signStep, .submitStep]

/-- C1 as stated is false: with balance 0 the range 0..0 handed to gen_range
is empty, the selector does not return 0 but panics, and the pipeline never
builds the instruction or transaction nor attempts submission. -/
theorem low_balance_counterexample :
    select_transfer_amount 3 0 ≠ some 0 ∧
    (runCore ⟨.ok ⟨[7]⟩, 3, [], .ok 0, .ok 11, .ok (), .ok 99⟩).result =
      .panicked "cannot sample empty range" ∧
    Step.buildInstruction ∉
      (runCore ⟨.ok ⟨[7]⟩, 3, [], .ok 0, .ok 11, .ok (), .ok 99⟩).trace ∧
    Step.submitStep ∉
      (runCore ⟨.ok ⟨[7]⟩, 3, [], .ok 0, .ok 11, .ok (), .ok 99⟩).trace ∧
    (runCore ⟨.ok ⟨[7]⟩, 3, [], .ok 0, .ok 11, .ok (), .ok 99⟩).assembled = none := by
  refine ⟨by decide, rfl, ?_, ?_, rfl⟩ <;> decide

/-- C1 amended: for every balance strictly below 2 the amount-selection step
fails for every randomness draw (gen_range panics on the empty range), the
run ends in a panic, and no instruction or transaction is built. -/
theorem low_balance_selection_panics (env : Env) (p : Pubkey) (b : Nat)
    (hs : env.signer_result = .ok p) (hb : env.balance_result = .ok b)
    (hlt : b < 2) :
    select_transfer_amount env.rng b = none ∧
    (runCore env).result = .panicked "cannot sample empty range" ∧
    Step.buildInstruction ∉ (runCore env).trace ∧
    (runCore env).assembled = none := by
  have hdiv : b / 2 = 0 := by omega
  have hsel : select_transfer_amount env.rng b = none := by
    simp [select_transfer_amount, gen_range, hdiv]
  refine ⟨hsel, ?_, ?_, ?_⟩ <;> simp [runCore, hs, hb, hsel]

/-- C1 amended witness at balance 1. -/
theorem low_balance_selection_panics_witness :
    (Env.mk (.ok ⟨[4]⟩) 5 [] (.ok 1) (.ok 11) (.ok ()) (.ok 99)).signer_result =
        .ok ⟨[4]⟩ ∧
    (Env.mk (.ok ⟨[4]⟩) 5 [] (.ok 1) (.ok 11) (.ok ()) (.ok 99)).balance_result =
        .ok 1 ∧
    1 < 2 ∧
    (select_transfer_amount
        (Env.mk (.ok ⟨[4]⟩) 5 [] (.ok 1) (.ok 11) (.ok ()) (.ok 99)).rng 1 = none ∧
      (runCore (Env.mk (.ok ⟨[4]⟩) 5 [] (.ok 1) (.ok 11) (.ok ()) (.ok 99))).result =
        .panicked "cannot sample empty range" ∧
      Step.buildInstruction ∉
        (runCore (Env.mk (.ok ⟨[4]⟩) 5 [] (.ok 1) (.ok 11) (.ok ()) (.ok 99))).trace ∧
      (runCore (Env.mk (.ok ⟨[4]⟩) 5 [] (.ok 1) (.ok 11) (.ok ()) (.ok 99))).assembled =
        none) :=
  ⟨rfl, rfl, by norm_num,
    low_balance_selection_panics _ ⟨[4]⟩ 1 rfl rfl (by norm_num)⟩

lemma runCore_assembled (env : Env) (tx : Transaction)
    (h : (runCore env).assembled = some tx) :
    ∃ p amt, env.signer_result = .ok p ∧
      tx = Transaction.new_unsigned (main_message p amt env.extra_addresses) := by
  rcases hsr : env.signer_result with err | p
  · simp [runCore, hsr] at h
  · rcases hbr : env.balance_result with err | bal
    · simp [runCore, hsr, hbr] at h
    · rcases hsel : select_transfer_amount env.rng bal with _ | amt
      · simp [runCore, hsr, hbr, hsel] at h
      · refine ⟨p, amt, by simp [hsr], ?_⟩
        rcases hbh : env.blockhash_result with err | bh
        · simp [runCore, hsr, hbr, hsel, hbh] at h
          exact h.symm
        · rcases hsg : env.sign_result with err | u
          · simp [runCore, hsr, hbr, hsel, hbh, hsg] at h
            exact h.symm
          · rcases hsb : env.submit_result with err | sig
            · simp [runCore, hsr, hbr, hsel, hbh, hsg, hsb] at h
              exact h.symm
            · simp [runCore, hsr, hbr, hsel, hbh, hsg, hsb] at h
              exact h.symm

/-- C5: whenever the pipeline assembles a transaction, its message wraps
exactly one instruction, the fee payer is the resolved signer, and that one
instruction is a transfer whose from and to keys are both the signer. -/
theorem assembled_message_single_self_transfer (env : Env) (tx : Transaction)
    (h : (runCore env).assembled = some tx) :
    ∃ p, env.signer_result = .ok p ∧
      tx.message.instructions.length = 1 ∧
      tx.message.fee_payer = some p ∧
      ∃ amt, tx.message.instructions =
        [transfer_with p p amt env.extra_addresses] := by
  obtain ⟨p, amt, hs, rfl⟩ := runCore_assembled env tx h
  exact ⟨p, hs, by simp [Transaction.new_unsigned, main_message, Message.new],
    rfl, amt, rfl⟩

/-- C5 witness on a fully successful run with one extra address. -/
theorem assembled_message_single_self_transfer_witness :
    (runCore (Env.mk (.ok ⟨[5]⟩) 1 [⟨[9]⟩] (.ok 10) (.ok 3) (.ok ()) (.ok 42))).assembled =
        some (Transaction.new_unsigned (main_message ⟨[5]⟩ 1 [⟨[9]⟩])) ∧
    (∃ p, (Env.mk (.ok ⟨[5]⟩) 1 [⟨[9]⟩] (.ok 10) (.ok 3) (.ok ()) (.ok 42)).signer_result =
          .ok p ∧
        (Transaction.new_unsigned (main_message ⟨[5]⟩ 1 [⟨[9]⟩])).message.instructions.length = 1 ∧
        (Transaction.new_unsigned (main_message ⟨[5]⟩ 1 [⟨[9]⟩])).message.fee_payer = some p ∧
        ∃ amt, (Transaction.new_unsigned (main_message ⟨[5]⟩ 1 [⟨[9]⟩])).message.instructions =
          [transfer_with p p amt
            (Env.mk (.ok ⟨[5]⟩) 1 [⟨[9]⟩] (.ok 10) (.ok 3) (.ok ()) (.ok 42)).extra_addresses]) :=
  ⟨rfl, assembled_message_single_self_transfer _ _ rfl⟩

lemma select_transfer_amount_of_two_le (r b : Nat) (h2 : 2 ≤ b) :
    select_transfer_amount r b = some (r % (b / 2)) := by
  have hpos : 0 < b / 2 := Nat.div_pos h2 (by norm_num)
  simp [select_transfer_amount, gen_range, hpos]

lemma blockhash_msg_split (e : String) :
    "error: unable to get latest blockhash: " ++ e =
      "error: " ++ ("unable to get latest blockhash: " ++ e) := by
  rw [← String.append_assoc]
  rfl

lemma submit_msg_split (e : String) :
    "error: send transaction: " ++ e = "error: " ++ ("send transaction: " ++ e) := by
  rw [← String.append_assoc]
  rfl

lemma sign_msg_split (e : String) :
    "error: failed to sign transaction: " ++ e =
      "error: " ++ ("failed to sign transaction: " ++ e) := by
  rw [← String.append_assoc]
  rfl

lemma submit_msg_ne_blockhash_msg (e e' : String) :
    ("error: send transaction: " ++ e) ≠
      ("error: unable to get latest blockhash: " ++ e') := by
  intro h
  have h2 := congrArg (fun s => s.data.get? 7) h
  simp [String.data_append] at h2

/-- C6: when the blockhash query fails, the run reports exactly the
query-class message with the error prefix, never reaches the signing step,
exits with a non-zero status and prints no Signature line. -/
theorem anchor_error_halts_before_signing (env : Env) (p : Pubkey) (b : Nat)
    (e : String) (hs : env.signer_result = .ok p)
    (hb : env.balance_result = .ok b) (h2 : 2 ≤ b)
    (he : env.blockhash_result = .error e) :
    (runCore env).result =
      .failure ("error: unable to get latest blockhash: " ++ e) ∧
    (∃ t, "error: unable to get latest blockhash: " ++ e = "error: " ++ t) ∧
    Step.signStep ∉ (runCore env).trace ∧
    (runCore env).result.exit_code ≠ 0 ∧
    ∀ s, (runCore env).result ≠ .success s := by
  have hsel := select_transfer_amount_of_two_le env.rng b h2
  refine ⟨?_, ⟨_, blockhash_msg_split e⟩, ?_, ?_, ?_⟩ <;>
    simp [runCore, hs, hb, hsel, he, RunResult.exit_code]

/-- C6 witness with a concrete failing blockhash query. -/
theorem anchor_error_halts_before_signing_witness :
    (Env.mk (.ok ⟨[5]⟩) 4 [] (.ok 9) (.error "down") (.ok ()) (.ok 42)).signer_result =
        .ok ⟨[5]⟩ ∧
    (Env.mk (.ok ⟨[5]⟩) 4 [] (.ok 9) (.error "down") (.ok ()) (.ok 42)).balance_result =
        .ok 9 ∧
    2 ≤ 9 ∧
    (Env.mk (.ok ⟨[5]⟩) 4 [] (.ok 9) (.error "down") (.ok ()) (.ok 42)).blockhash_result =
        .error "down" ∧
    ((runCore (Env.mk (.ok ⟨[5]⟩) 4 [] (.ok 9) (.error "down") (.ok ()) (.ok 42))).result =
        .failure ("error: unable to get latest blockhash: " ++ "down") ∧
      (∃ t, "error: unable to get latest blockhash: " ++ "down" = "error: " ++ t) ∧
      Step.signStep ∉
        (runCore (Env.mk (.ok ⟨[5]⟩) 4 [] (.ok 9) (.error "down") (.ok ()) (.ok 42))).trace ∧
      (runCore (Env.mk (.ok ⟨[5]⟩) 4 [] (.ok 9) (.error "down") (.ok ()) (.ok 42))).result.exit_code ≠ 0 ∧
      ∀ s, (runCore (Env.mk (.ok ⟨[5]⟩) 4 [] (.ok 9) (.error "down") (.ok ()) (.ok 42))).result ≠
        .success s) :=
  ⟨rfl, rfl, by norm_num, rfl,
    anchor_error_halts_before_signing _ ⟨[5]⟩ 9 "down" rfl rfl (by norm_num) rfl⟩

/-- C7: when submission fails after signing, the run reports exactly the
submission-class message, which is textually distinct from every
query-class blockhash message, and prints no Signature line. -/
theorem submit_error_distinct_reporting (env : Env) (p : Pubkey) (b bh : Nat)
    (e : String) (hs : env.signer_result = .ok p)
    (hb : env.balance_result = .ok b) (h2 : 2 ≤ b)
    (hbh : env.blockhash_result = .ok bh) (hsg : env.sign_result = .ok ())
    (hsub : env.submit_result = .error e) :
    (runCore env).result = .failure ("error: send transaction: " ++ e) ∧
    (∀ e', ("error: send transaction: " ++ e) ≠
      ("error: unable to get latest blockhash: " ++ e')) ∧
    (runCore env).result.exit_code ≠ 0 ∧
    ∀ s, (runCore env).result ≠ .success s := by
  have hsel := select_transfer_amount_of_two_le env.rng b h2
  refine ⟨?_, fun e' => submit_msg_ne_blockhash_msg e e', ?_, ?_⟩ <;>
    simp [runCore, hs, hb, hsel, hbh, hsg, hsub, RunResult.exit_code]

/-- C7 witness with a concrete rejected submission. -/
theorem submit_error_distinct_reporting_witness :
    (Env.mk (.ok ⟨[5]⟩) 4 [] (.ok 9) (.ok 3) (.ok ()) (.error "rejected")).signer_result =
        .ok ⟨[5]⟩ ∧
    (Env.mk (.ok ⟨[5]⟩) 4 [] (.ok 9) (.ok 3) (.ok ()) (.error "rejected")).balance_result =
        .ok 9 ∧
    2 ≤ 9 ∧
    (Env.mk (.ok ⟨[5]⟩) 4 [] (.ok 9) (.ok 3) (.ok ()) (.error "rejected")).blockhash_result =
        .ok 3 ∧
    (Env.mk (.ok ⟨[5]⟩) 4 [] (.ok 9) (.ok 3) (.ok ()) (.error "rejected")).sign_result =
        .ok () ∧
    (Env.mk (.ok ⟨[5]⟩) 4 [] (.ok 9) (.ok 3) (.ok ()) (.error "rejected")).submit_result =
        .error "rejected" ∧
    ((runCore (Env.mk (.ok ⟨[5]⟩) 4 [] (.ok 9) (.ok 3) (.ok ()) (.error "rejected"))).result =
        .failure ("error: send transaction: " ++ "rejected") ∧
      (∀ e', ("error: send transaction: " ++ "rejected") ≠
        ("error: unable to get latest blockhash: " ++ e')) ∧
      (runCore (Env.mk (.ok ⟨[5]⟩) 4 [] (.ok 9) (.ok 3) (.ok ()) (.error "rejected"))).result.exit_code ≠ 0 ∧
      ∀ s, (runCore (Env.mk (.ok ⟨[5]⟩) 4 [] (.ok 9) (.ok 3) (.ok ()) (.error "rejected"))).result ≠
        .success s) :=
  ⟨rfl, rfl, by norm_num, rfl, rfl, rfl,
    submit_error_distinct_reporting _ ⟨[5]⟩ 9 3 "rejected" rfl rfl (by norm_num)
      rfl rfl rfl⟩


lemma string_ne_error_prefixed_of_short (m : String) (hm : m.length < 7) :
    ∀ t, m ≠ "error: " ++ t := by
  intro t h
  have h2 := congrArg String.length h
  have h4 : ("error: " : String).length = 7 := rfl
  rw [String.length_append, h4] at h2
  omega

lemma reporting_failure_case (env : Env) (msg : String)
    (hres : (runCore env).result = .failure msg)
    (hmsg : (∃ t, msg = "error: " ++ t) ∨ env.balance_result = .error msg) :
    (∀ s, (runCore env).result = .success s →
      (runCore env).result.exit_code = 0 ∧
      ∃ sig, env.submit_result = .ok sig ∧ s = "Signature: " ++ toString sig) ∧
    (∀ m, (runCore env).result = .failure m →
      (runCore env).result.exit_code ≠ 0 ∧
      ((∃ t, m = "error: " ++ t) ∨ env.balance_result = .error m)) ∧
    (∀ m, (runCore env).result = .panicked m →
      (runCore env).result.exit_code ≠ 0) := by
  refine ⟨?_, ?_, ?_⟩
  · intro s hm
    rw [hres] at hm
    exact absurd hm (by simp)
  · intro m hm
    rw [hres] at hm
    have hm2 : msg = m := by injection hm
    subst hm2
    exact ⟨by simp [hres, RunResult.exit_code], hmsg⟩
  · intro m hm
    rw [hres] at hm
    exact absurd hm (by simp)

lemma reporting_panicked_case (env : Env) (msg : String)
    (hres : (runCore env).result = .panicked msg) :
    (∀ s, (runCore env).result = .success s →
      (runCore env).result.exit_code = 0 ∧
      ∃ sig, env.submit_result = .ok sig ∧ s = "Signature: " ++ toString sig) ∧
    (∀ m, (runCore env).result = .failure m →
      (runCore env).result.exit_code ≠ 0 ∧
      ((∃ t, m = "error: " ++ t) ∨ env.balance_result = .error m)) ∧
    (∀ m, (runCore env).result = .panicked m →
      (runCore env).result.exit_code ≠ 0) := by
  refine ⟨?_, ?_, ?_⟩
  · intro s hm
    rw [hres] at hm
    exact absurd hm (by simp)
  · intro m hm
    rw [hres] at hm
    exact absurd hm (by simp)
  · intro m hm
    exact by simp [hres, RunResult.exit_code]

lemma reporting_success_case (env : Env) (sig : Nat)
    (hsub : env.submit_result = .ok sig)
    (hres : (runCore env).result = .success ("Signature: " ++ toString sig)) :
    (∀ s, (runCore env).result = .success s →
      (runCore env).result.exit_code = 0 ∧
      ∃ sig, env.submit_result = .ok sig ∧ s = "Signature: " ++ toString sig) ∧
    (∀ m, (runCore env).result = .failure m →
      (runCore env).result.exit_code ≠ 0 ∧
      ((∃ t, m = "error: " ++ t) ∨ env.balance_result = .error m)) ∧
    (∀ m, (runCore env).result = .panicked m →
      (runCore env).result.exit_code ≠ 0) := by
  refine ⟨?_, ?_, ?_⟩
  · intro s hm
    rw [hres] at hm
    have hm2 : ("Signature: " ++ toString sig) = s := by injection hm
    exact ⟨by simp [hres, RunResult.exit_code], sig, hsub, hm2.symm⟩
  · intro m hm
    rw [hres] at hm
    exact absurd hm (by simp)
  · intro m hm
    rw [hres] at hm
    exact absurd hm (by simp)

/-- C8 as stated is false: a failing balance query is propagated by a bare
question-mark operator, so the reported message is the raw collaborator
error with no error prefix, even though the exit status is non-zero. -/
theorem error_prefix_counterexample :
    (runCore (Env.mk (.ok ⟨[1]⟩) 0 [] (.error "boom") (.ok 1) (.ok ()) (.ok 7))).result =
      .failure "boom" ∧
    (runCore (Env.mk (.ok ⟨[1]⟩) 0 [] (.error "boom") (.ok 1) (.ok ()) (.ok 7))).result.exit_code ≠ 0 ∧
    ∀ t, ("boom" : String) ≠ "error: " ++ t := by
  refine ⟨rfl, by norm_num [runCore, RunResult.exit_code], ?_⟩
  exact string_ne_error_prefixed_of_short "boom" (by decide)

/-- C8 amended: a successful run prints exactly the Signature line of the
confirmed signature and exits 0; every fatal error exits non-zero; the
resolution, blockhash, signing and submission failure messages carry the
error prefix, while a balance-query failure propagates the raw collaborator
message unchanged. -/
theorem process_exit_reporting (env : Env) :
    (∀ s, (runCore env).result = .success s →
      (runCore env).result.exit_code = 0 ∧
      ∃ sig, env.submit_result = .ok sig ∧ s = "Signature: " ++ toString sig) ∧
    (∀ m, (runCore env).result = .failure m →
      (runCore env).result.exit_code ≠ 0 ∧
      ((∃ t, m = "error: " ++ t) ∨ env.balance_result = .error m)) ∧
    (∀ m, (runCore env).result = .panicked m →
      (runCore env).result.exit_code ≠ 0) := by
  obtain ⟨sr, rng, ex, br, bh, sg, sb⟩ := env
  rcases sr with err | p
  · exact reporting_failure_case _ ("error: " ++ err) (by simp [runCore])
      (Or.inl ⟨err, rfl⟩)
  · rcases br with err | bal
    · exact reporting_failure_case _ err (by simp [runCore]) (Or.inr rfl)
    · rcases hsel : select_transfer_amount rng bal with _ | amt
      · exact reporting_panicked_case _ "cannot sample empty range"
          (by simp [runCore, hsel])
      · rcases bh with err | bhv
        · exact reporting_failure_case _
            ("error: unable to get latest blockhash: " ++ err)
            (by simp [runCore, hsel])
            (Or.inl ⟨_, blockhash_msg_split err⟩)
        · rcases sg with err | u
          · exact reporting_failure_case _
              ("error: failed to sign transaction: " ++ err)
              (by simp [runCore, hsel])
              (Or.inl ⟨_, sign_msg_split err⟩)
          · rcases sb with err | sig
            · exact reporting_failure_case _
                ("error: send transaction: " ++ err)
                (by simp [runCore, hsel])
                (Or.inl ⟨_, submit_msg_split err⟩)
            · exact reporting_success_case _ sig rfl (by simp [runCore, hsel])

/-- C8 amended witness: a successful run with signature 42 prints the
Signature line and exits 0. -/
theorem process_exit_reporting_witness :
    (runCore (Env.mk (.ok ⟨[6]⟩) 2 [] (.ok 8) (.ok 3) (.ok ()) (.ok 42))).result.exit_code = 0 ∧
    ∃ sig, (Env.mk (.ok ⟨[6]⟩) 2 [] (.ok 8) (.ok 3) (.ok ()) (.ok 42) : Env).submit_result =
        .ok sig ∧
      ("Signature: " ++ toString (42 : Nat)) = "Signature: " ++ toString sig :=
  (process_exit_reporting (Env.mk (.ok ⟨[6]⟩) 2 [] (.ok 8) (.ok 3) (.ok ()) (.ok 42))).1
    ("Signature: " ++ toString (42 : Nat)) rfl

/-- C9 as stated is false: on a fully successful run the trace shows message
assembly happening strictly before the recent-anchor query, not after it as
the claimed order requires (Message::new runs before get_latest_blockhash).
-/
theorem assembly_before_anchor_counterexample :
    (runCore (Env.mk (.ok ⟨[2]⟩) 0 [] (.ok 4) (.ok 9) (.ok ()) (.ok 5))).trace =
      code_step_order ∧
    List.indexOf Step.assembleMessage
        (runCore (Env.mk (.ok ⟨[2]⟩) 0 [] (.ok 4) (.ok 9) (.ok ()) (.ok 5))).trace <
      List.indexOf Step.queryAnchor
        (runCore (Env.mk (.ok ⟨[2]⟩) 0 [] (.ok 4) (.ok 9) (.ok ()) (.ok 5))).trace := by
  constructor
  · rfl
  · decide

/-- C9 amended: every run visits a prefix of the fixed stage order balance
query, amount selection, instruction build, message assembly, anchor query,
signing, submission, with no stage repeated and hence no re-entry into an
earlier stage. -/
theorem pipeline_trace_sequential (env : Env) :
    ∃ k, (runCore env).trace = code_step_order.take k ∧ (runCore env).trace.Nodup := by
  obtain ⟨sr, rng, ex, br, bh, sg, sb⟩ := env
  rcases sr with err | p
  · exact ⟨0, by simp [runCore], by simp [runCore]⟩
  · rcases br with err | bal
    · refine ⟨1, ?_, ?_⟩ <;> simp [runCore, code_step_order]
    · rcases hsel : select_transfer_amount rng bal with _ | amt
      · refine ⟨2, ?_, ?_⟩ <;> simp [runCore, hsel, code_step_order]
      · rcases bh with err | bhv
        · refine ⟨5, ?_, ?_⟩ <;> simp [runCore, hsel, code_step_order]
        · rcases sg with err | u
          · refine ⟨6, ?_, ?_⟩ <;> simp [runCore, hsel, code_step_order]
          · rcases sb with err | sig
            · refine ⟨7, ?_, ?_⟩ <;> simp [runCore, hsel, code_step_order]
            · refine ⟨7, ?_, ?_⟩ <;> simp [runCore, hsel, code_step_order]
